import Mathlib

/-!
A shallow embedding of `src/WebKit/android/WebCoreSupport/WebRequest.cpp`
(the per-request load state machine of the Android WebKit network bridge)
and proofs about it.

Modelling conventions:
* `WebRequestState` carries the fields of the C++ `WebRequest` object that the
  claims are about: `m_loadState`, `m_networkBuffer` (as the capacity of the
  allocated buffer, `none` when the pointer is null), `m_request` and
  `m_urlLoader` (as booleans recording whether the pointer is non-null), plus
  the ordered list of notifications posted so far via
  `maybeCallOnMainThread` (the cross-thread notifier is fire-and-forget, so
  the posted list is the whole observable behaviour).
* A fatal `ASSERT` (which calls `CRASH()`) is modelled by returning `none`.
* The external transport (`URLRequest`) is modelled by scripts: each call to
  `m_request->Read` consumes one `ReadResult`, and each `OnReadCompleted`
  callback is an element of a completion list.  The Java input stream of the
  Android-URL variant is a list of `readFromStream` return values; once the
  list is exhausted the stream is at EOF (modelled as an immediate break,
  exactly what a final negative return value produces).
* External pure helpers (`net::GetMimeTypeFromFile`, `net::DataURL::Parse`,
  the asset store) are parameters of the functions that call them.
-/

namespace WebRequestModel

/-- The load states of a request.  The constructor order is the numeric order
of the C++ enum.  Modelled from the spec: the enum itself is declared in
`WebRequest.h`, which is not among the sources; the spec gives the progression
`Created → Started → Response → GotData → Finished → Deleted` with `Cancelled`
between `GotData` and `Finished` (states "past `Cancelled`" are the ones where
a finish has already landed). -/
inductive LoadState where
  | Created
  | Started
  | Response
  | GotData
  | Cancelled
  | Finished
  | Deleted
deriving DecidableEq, Repr

/-- Numeric value of a `LoadState`, for the `<`, `>`, `>=` comparisons the
C++ code performs on the enum. -/
def LoadState.toNat : LoadState → Nat
  | LoadState.Created => 0
  | LoadState.Started => 1
  | LoadState.Response => 2
  | LoadState.GotData => 3
  | LoadState.Cancelled => 4
  | LoadState.Finished => 5
  | LoadState.Deleted => 6

/-- The fields of a `WebResponse` descriptor as built by the constructors used
in `WebRequest.cpp`: `WebResponse(url, mimeType, expectedSize, encoding,
httpStatusCode)`. -/
structure WebResponse where
  url : String
  mimeType : String
  length : Nat
  charset : String
  status : Nat
deriving DecidableEq, Repr

/-- One notification posted to the `WebUrlLoaderClient` consumer via
`maybeCallOnMainThread`. -/
inductive Notification where
  | didFinishLoading
  | didFail (resp : WebResponse)
  | didReceiveResponse (resp : WebResponse)
  | willSendRequest (resp : WebResponse)
  | authRequired
  | didReceiveData (bytesRead : Int)
  | didReceiveAndroidFileData (size : Int)
  | didReceiveDataUrl (data : String)
deriving DecidableEq, Repr

/-- The mutable state of a `WebRequest` object, plus the list of
notifications it has posted. -/
structure WebRequestState where
  url : String
  loadState : LoadState
  networkBuffer : Option Nat
  request : Bool
  urlLoader : Bool
  notifications : List Notification
deriving DecidableEq, Repr

/-- `kInitialReadBufSize` from the anonymous namespace. -/
def kInitialReadBufSize : Nat := 32768

/-- State after the network constructor
`WebRequest(loader, webResourceRequest)`: a fresh `URLRequest` is created, the
loader is retained, no buffer is allocated. -/
def initWebRequest (url : String) : WebRequestState :=
  { url := url
    loadState := LoadState.Created
    networkBuffer := none
    request := true
    urlLoader := true
    notifications := [] }

/-- State after the Android-URL constructor
`WebRequest(loader, webResourceRequest, inputStream)`: no `URLRequest` is ever
created on this path (`m_request` stays null). -/
def initAndroidWebRequest (url : String) : WebRequestState :=
  { url := url
    loadState := LoadState.Created
    networkBuffer := none
    request := false
    urlLoader := true
    notifications := [] }

/-- `WebRequest::finish(bool success)`.  Asserts `m_loadState < Finished`,
sets `Finished`, posts `didFinishLoading` on success and `didFail` with a
descriptor built from `m_request` (the parameter `tr`) on failure, then clears
`m_networkBuffer`, `m_request` and `m_urlLoader`. -/
def WebRequest.finish (tr : WebResponse) (success : Bool) (s : WebRequestState) :
    Option WebRequestState :=
  if s.loadState.toNat < LoadState.Finished.toNat then
    some { s with
      loadState := LoadState.Finished
      notifications := s.notifications ++
        [if success then Notification.didFinishLoading else Notification.didFail tr]
      networkBuffer := none
      request := false
      urlLoader := false }
  else
    none

/-- `WebRequest::cancel()`.  Asserts `m_loadState >= Started` and
`m_loadState != Cancelled`; if the state is already past `Cancelled` it
returns doing nothing; otherwise it asserts `m_request` is set, transitions to
`Cancelled`, cancels the transport request and calls `finish(true)`. -/
def WebRequest.cancel (tr : WebResponse) (s : WebRequestState) :
    Option WebRequestState :=
  if LoadState.Started.toNat ≤ s.loadState.toNat then
    if s.loadState ≠ LoadState.Cancelled then
      if LoadState.Cancelled.toNat < s.loadState.toNat then
        some s
      else if s.request then
        WebRequest.finish tr true { s with loadState := LoadState.Cancelled }
      else
        none
    else
      none
  else
    none

/-- `WebRequest::read(int* bytesRead)`, state effect only.  Asserts the state
is `Response` or `GotData` and that `m_networkBuffer == 0`, then allocates a
fresh `net::IOBuffer(kInitialReadBufSize)`.  The value returned by
`m_request->Read` is supplied by the read script at the call sites. -/
def WebRequest.read (s : WebRequestState) : Option WebRequestState :=
  if (s.loadState = LoadState.Response ∨ s.loadState = LoadState.GotData)
      ∧ s.networkBuffer = none then
    some { s with networkBuffer := some kInitialReadBufSize }
  else
    none

/-- Outcome of one `m_request->Read` call: a synchronous completion with `n`
bytes (`Read` returned true), a false return with `status().is_io_pending()`,
or a false return with any other status. -/
inductive ReadResult where
  | sync (n : Nat)
  | pending
  | failed
deriving DecidableEq, Repr

/-- The `while (true)` loop body of `WebRequest::startReading`, consuming one
`ReadResult` per iteration.  An exhausted script leaves the loop at its head
with no transport answer (the run is simply not observed further). -/
def startReadingLoop (tr : WebResponse) :
    List ReadResult → WebRequestState → Option WebRequestState
  | [], s => some s
  | r :: rest, s =>
    match WebRequest.read s with
    | none => none
    | some sb =>
      match r with
      | ReadResult.sync 0 => WebRequest.finish tr true sb
      | ReadResult.sync (n + 1) =>
        startReadingLoop tr rest
          { sb with
            loadState := LoadState.GotData
            notifications := sb.notifications ++
              [Notification.didReceiveData (Int.ofNat (n + 1))]
            networkBuffer := none }
      | ReadResult.pending =>
        if sb.request then some sb else WebRequest.finish tr false sb
      | ReadResult.failed => WebRequest.finish tr false sb

/-- `WebRequest::startReading()`: asserts the state is `Response` or
`GotData`, then runs the read loop. -/
def WebRequest.startReading (tr : WebResponse) (script : List ReadResult)
    (s : WebRequestState) : Option WebRequestState :=
  if s.loadState = LoadState.Response ∨ s.loadState = LoadState.GotData then
    startReadingLoop tr script s
  else
    none

/-- `WebRequest::OnReadCompleted(request, bytesRead)`: asserts the state is
`Response` or `GotData`; on `status().is_success()` transitions to `GotData`,
posts `didReceiveData` with the outstanding buffer and `bytesRead`, clears
`m_networkBuffer` and resumes `startReading`; otherwise calls
`finish(false)`. -/
def WebRequest.OnReadCompleted (tr : WebResponse) (script : List ReadResult)
    (ok : Bool) (bytesRead : Int) (s : WebRequestState) :
    Option WebRequestState :=
  if s.loadState = LoadState.Response ∨ s.loadState = LoadState.GotData then
    if ok then
      WebRequest.startReading tr script
        { s with
          loadState := LoadState.GotData
          notifications := s.notifications ++ [Notification.didReceiveData bytesRead]
          networkBuffer := none }
    else
      WebRequest.finish tr false s
  else
    none

/-- `WebRequest::OnResponseStarted(request)`: asserts the state is `Started`,
transitions to `Response`; on `status().is_success()` posts
`didReceiveResponse` with a descriptor built from the request and starts
reading; otherwise calls `finish(false)`. -/
def WebRequest.OnResponseStarted (tr : WebResponse) (ok : Bool)
    (script : List ReadResult) (s : WebRequestState) : Option WebRequestState :=
  if s.loadState = LoadState.Started then
    let s1 := { s with loadState := LoadState.Response }
    if ok then
      WebRequest.startReading tr script
        { s1 with notifications := s1.notifications ++ [Notification.didReceiveResponse tr] }
    else
      WebRequest.finish tr false s1
  else
    none

/-- `WebRequest::OnReceivedRedirect(newRequest, newUrl, deferRedirect)`:
asserts the state is before `Response`; if the new request's status is a
success, posts `willSendRequest` with a descriptor whose URL is the redirect
target; otherwise does nothing. -/
def WebRequest.OnReceivedRedirect (tr : WebResponse) (ok : Bool)
    (newUrl : String) (s : WebRequestState) : Option WebRequestState :=
  if s.loadState.toNat < LoadState.Response.toNat then
    if ok then
      some { s with notifications := s.notifications ++
        [Notification.willSendRequest { tr with url := newUrl }] }
    else
      some s
  else
    none

/-- `WebRequest::OnAuthRequired(request, authInfo)`: asserts the state is
`Started` and posts `authRequired`. -/
def WebRequest.OnAuthRequired (s : WebRequestState) : Option WebRequestState :=
  if s.loadState = LoadState.Started then
    some { s with notifications := s.notifications ++ [Notification.authRequired] }
  else
    none

/-- MIME type computation of `WebRequest::handleAndroidURL`: the default is
`"text/html"`; when the URL has a `?`, everything after the last `?` is taken
as the MIME type; otherwise `net::GetMimeTypeFromFile` (the parameter
`fileMime`, returning `none` when it does not recognise the extension and
leaves the default in place) is consulted. -/
def mimeFromUrl (fileMime : String → Option String) (url : String) : String :=
  if url.data.contains '?' then
    String.mk ((url.data.reverse.takeWhile (fun c => c ≠ '?')).reverse)
  else
    match fileMime url with
    | some m => m
    | none => "text/html"

/-- The `do { … } while (true)` loop of `WebRequest::handleAndroidURL`: each
iteration calls `readFromStream`; a negative size breaks the loop, any size
`>= 0` copies `size` bytes, sets `GotData` and posts
`didReceiveAndroidFileData`. -/
def androidReadLoop : List Int → WebRequestState → WebRequestState
  | [], s => s
  | n :: rest, s =>
    if n < 0 then s
    else
      androidReadLoop rest
        { s with
          loadState := LoadState.GotData
          notifications := s.notifications ++ [Notification.didReceiveAndroidFileData n] }

/-- `WebRequest::handleAndroidURL()`.  With `m_inputStream == 0` it sets
`Finished` directly, posts `didFail` with the empty descriptor
`WebResponse(m_url, "", 0, "", 0)` and returns (note: without clearing
`m_urlLoader`).  Otherwise it sets `Response`, posts `didReceiveResponse`
with `WebResponse(m_url, mimeType, 0, "", 200)`, drains the stream and calls
`finish(true)`. -/
def WebRequest.handleAndroidURL (tr : WebResponse)
    (fileMime : String → Option String) (inputStream : Option (List Int))
    (s : WebRequestState) : Option WebRequestState :=
  match inputStream with
  | none =>
    some { s with
      loadState := LoadState.Finished
      notifications := s.notifications ++
        [Notification.didFail
          { url := s.url, mimeType := "", length := 0, charset := "", status := 0 }] }
  | some stream =>
    let mt := mimeFromUrl fileMime s.url
    let s2 :=
      { s with
        loadState := LoadState.Response
        notifications := s.notifications ++
          [Notification.didReceiveResponse
            { url := s.url, mimeType := mt, length := 0, charset := "", status := 200 }] }
    WebRequest.finish tr true (androidReadLoop stream s2)

/-- `WebRequest::handleDataURL(GURL url)`.  `net::DataURL::Parse` is the
parameter `parsed`: `some (mimeType, charset, data)` on success, `none` on
failure.  On success it sets `Response`, posts `didReceiveResponse` with
`WebResponse(url.spec(), mimeType, data->size(), charset, 200)`, and if the
data is non-empty sets `GotData` and posts `didReceiveDataUrl`; the failure
branch is empty.  Both branches fall through to `finish(true)`. -/
def WebRequest.handleDataURL (tr : WebResponse)
    (parsed : Option (String × String × String)) (url : String)
    (s : WebRequestState) : Option WebRequestState :=
  match parsed with
  | some (mimeType, charset, data) =>
    let s1 :=
      { s with
        loadState := LoadState.Response
        notifications := s.notifications ++
          [Notification.didReceiveResponse
            { url := url, mimeType := mimeType, length := data.length
              charset := charset, status := 200 }] }
    let s2 :=
      if data.isEmpty then s1
      else
        { s1 with
          loadState := LoadState.GotData
          notifications := s1.notifications ++ [Notification.didReceiveDataUrl data] }
    WebRequest.finish tr true s2
  | none => WebRequest.finish tr true s

/-- The `data:` URL string `WebRequest::handleBrowserURL` builds: the fixed
HTML prefix, with the incognito start page asset appended for
`browser:incognito` when the asset store (`incognitoAsset`) has it. -/
def browserDataString (incognitoAsset : Option String) (url : String) : String :=
  if url = "browser:incognito" then
    match incognitoAsset with
    | some content => "data:text/html;charset=utf-8," ++ content
    | none => "data:text/html;charset=utf-8,"
  else
    "data:text/html;charset=utf-8,"

/-- `WebRequest::handleBrowserURL(GURL url)`: builds the
`data:text/html;charset=utf-8,` URL (appending the incognito start page asset
for `browser:incognito` when the asset store has it) and delegates to
`handleDataURL`.  The parameter `parse` stands for `net::DataURL::Parse`. -/
def WebRequest.handleBrowserURL (tr : WebResponse)
    (incognitoAsset : Option String)
    (parse : String → Option (String × String × String))
    (url : String) (s : WebRequestState) : Option WebRequestState :=
  WebRequest.handleDataURL tr (parse (browserDataString incognitoAsset url))
    (browserDataString incognitoAsset url) s

/-- Which of the dispatch paths of `WebRequest::start` applies to this
request, together with the external collaborators that path consumes. -/
inductive RequestKind where
  | androidStream (fileMime : String → Option String) (inputStream : Option (List Int))
  | dataUrl (parsed : Option (String × String × String))
  | browserUrl (incognitoAsset : Option String)
      (parse : String → Option (String × String × String))
  | network

/-- `WebRequest::start(bool isPrivateBrowsing)`: asserts the state is
`Created`, transitions to `Started`, then dispatches on `m_androidUrl` and the
URL scheme; the network path hands the request to the transport and
returns. -/
def WebRequest.start (tr : WebResponse) (kind : RequestKind)
    (s : WebRequestState) : Option WebRequestState :=
  if s.loadState = LoadState.Created then
    let s1 := { s with loadState := LoadState.Started }
    match kind with
    | RequestKind.androidStream fileMime inputStream =>
      WebRequest.handleAndroidURL tr fileMime inputStream s1
    | RequestKind.dataUrl parsed =>
      WebRequest.handleDataURL tr parsed s1.url s1
    | RequestKind.browserUrl incognitoAsset parse =>
      WebRequest.handleBrowserURL tr incognitoAsset parse s1.url s1
    | RequestKind.network => some s1
  else
    none

/-- `WebRequest::setAuth(username, password)`: asserts `Started`, forwards to
the transport (no observable state change in this model). -/
def WebRequest.setAuth (s : WebRequestState) : Option WebRequestState :=
  if s.loadState = LoadState.Started then some s else none

/-- `WebRequest::cancelAuth()`: asserts `Started`, forwards to the
transport. -/
def WebRequest.cancelAuth (s : WebRequestState) : Option WebRequestState :=
  if s.loadState = LoadState.Started then some s else none

/-- `WebRequest::AppendBytesToUpload(data)`: asserts `Created`, forwards the
chunk to the pending request body. -/
def WebRequest.AppendBytesToUpload (s : WebRequestState) : Option WebRequestState :=
  if s.loadState = LoadState.Created then some s else none

/-- A transport callback that can arrive before `OnResponseStarted`: a chained
redirect (with the status of the redirected request and the new URL) or an
authentication challenge. -/
inductive PreEvent where
  | redirect (ok : Bool) (newUrl : String)
  | auth

/-- Deliver a sequence of pre-response transport callbacks. -/
def runPreEvents (tr : WebResponse) :
    List PreEvent → WebRequestState → Option WebRequestState
  | [], s => some s
  | PreEvent.redirect ok u :: rest, s =>
    match WebRequest.OnReceivedRedirect tr ok u s with
    | some s1 => runPreEvents tr rest s1
    | none => none
  | PreEvent.auth :: rest, s =>
    match WebRequest.OnAuthRequired s with
    | some s1 => runPreEvents tr rest s1
    | none => none

/-- Deliver a sequence of `OnReadCompleted` callbacks; each carries the
transport status, the byte count, and the script answering the synchronous
reads the resumed loop performs. -/
def runCompletions (tr : WebResponse) :
    List (Bool × Int × List ReadResult) → WebRequestState → Option WebRequestState
  | [], s => some s
  | (ok, n, script) :: rest, s =>
    match WebRequest.OnReadCompleted tr script ok n s with
    | some s1 => runCompletions tr rest s1
    | none => none

/-- A complete network-path execution: construction, `start`, any
pre-response callbacks, `OnResponseStarted` with the transport's status and
the synchronous read script, then the `OnReadCompleted` callbacks. -/
def runNetwork (tr : WebResponse) (pre : List PreEvent) (ok : Bool)
    (script : List ReadResult)
    (completions : List (Bool × Int × List ReadResult)) (url : String) :
    Option WebRequestState :=
  (WebRequest.start tr RequestKind.network (initWebRequest url)).bind fun s1 =>
    (runPreEvents tr pre s1).bind fun s2 =>
      (WebRequest.OnResponseStarted tr ok script s2).bind fun s3 =>
        runCompletions tr completions s3

/-- A complete Android-URL execution: construction then `start` (the whole
load runs synchronously inside `start`). -/
def runAndroid (tr : WebResponse) (fileMime : String → Option String)
    (inputStream : Option (List Int)) (url : String) : Option WebRequestState :=
  WebRequest.start tr (RequestKind.androidStream fileMime inputStream)
    (initAndroidWebRequest url)

/-- A complete data-URL execution: construction then `start`. -/
def runDataUrl (tr : WebResponse) (parsed : Option (String × String × String))
    (url : String) : Option WebRequestState :=
  WebRequest.start tr (RequestKind.dataUrl parsed) (initWebRequest url)

/-- A complete browser-URL execution: construction then `start`. -/
def runBrowser (tr : WebResponse) (incognitoAsset : Option String)
    (parse : String → Option (String × String × String)) (url : String) :
    Option WebRequestState :=
  WebRequest.start tr (RequestKind.browserUrl incognitoAsset parse)
    (initWebRequest url)

/-- `startReadingLoop` instrumented to also return the state at each point
where the loop issues a read (calls `WebRequest::read`); the first component
is exactly `startReadingLoop`. -/
def startReadingLoopT (tr : WebResponse) :
    List ReadResult → WebRequestState →
      Option WebRequestState × List WebRequestState
  | [], s => (some s, [])
  | r :: rest, s =>
    match WebRequest.read s with
    | none => (none, [s])
    | some sb =>
      match r with
      | ReadResult.sync 0 => (WebRequest.finish tr true sb, [s])
      | ReadResult.sync (n + 1) =>
        let s1 :=
          { sb with
            loadState := LoadState.GotData
            notifications := sb.notifications ++
              [Notification.didReceiveData (Int.ofNat (n + 1))]
            networkBuffer := none }
        let rec2 := startReadingLoopT tr rest s1
        (rec2.1, s :: rec2.2)
      | ReadResult.pending =>
        (if sb.request then some sb else WebRequest.finish tr false sb, [s])
      | ReadResult.failed => (WebRequest.finish tr false sb, [s])

/-- Is this notification one of the two terminal ones? -/
def isTerminal : Notification → Bool
  | Notification.didFinishLoading => true
  | Notification.didFail _ => true
  | _ => false

/-- How many terminal notifications a posted list contains. -/
def terminalCount (l : List Notification) : Nat :=
  (l.filter isTerminal).length

/-- The list ends with a terminal notification, contains no other terminal
notification, and nothing at all after the terminal one. -/
def TerminatedOnce (l : List Notification) : Prop :=
  ∃ pre t, l = pre ++ [t] ∧ isTerminal t = true ∧ terminalCount pre = 0

/-- The request is still live: its state is before `Finished` and it has
posted no terminal notification yet. -/
def Running (s : WebRequestState) : Prop :=
  s.loadState.toNat < LoadState.Finished.toNat ∧ terminalCount s.notifications = 0

/-- `finish` has released the transport handle, the outstanding buffer and
the consumer handle. -/
def Cleared (s : WebRequestState) : Prop :=
  s.networkBuffer = none ∧ s.request = false ∧ s.urlLoader = false

/-- The request has fully terminated: state `Finished`, exactly one terminal
notification posted last, resources released. -/
def Done (s : WebRequestState) : Prop :=
  s.loadState = LoadState.Finished ∧ TerminatedOnce s.notifications ∧ Cleared s

lemma terminalCount_append (a b : List Notification) :
    terminalCount (a ++ b) = terminalCount a + terminalCount b := by
  simp [terminalCount, List.filter_append]

lemma terminalCount_append_single (l : List Notification) (n : Notification)
    (h : isTerminal n = false) : terminalCount (l ++ [n]) = terminalCount l := by
  simp [terminalCount, List.filter_append, List.filter, h]

lemma isTerminal_didReceiveResponse (r : WebResponse) :
    isTerminal (Notification.didReceiveResponse r) = false := rfl

lemma isTerminal_didReceiveDataUrl (d : String) :
    isTerminal (Notification.didReceiveDataUrl d) = false := rfl

lemma running_ne_finished {s : WebRequestState} (hr : Running s) :
    s.loadState ≠ LoadState.Finished := by
  intro he
  have := hr.1
  rw [he] at this
  exact absurd this (by decide)

/-- Unfolding `finish` under its precondition. -/
lemma finish_eq {tr : WebResponse} {b : Bool} {s : WebRequestState}
    (h : s.loadState.toNat < LoadState.Finished.toNat) :
    WebRequest.finish tr b s = some
      { s with
        loadState := LoadState.Finished
        notifications := s.notifications ++
          [if b then Notification.didFinishLoading else Notification.didFail tr]
        networkBuffer := none
        request := false
        urlLoader := false } := by
  unfold WebRequest.finish
  rw [if_pos h]

/-- From a running state, `finish` always terminates the request properly. -/
lemma finish_done {tr : WebResponse} {b : Bool} {s s' : WebRequestState}
    (hr : Running s) (h : WebRequest.finish tr b s = some s') : Done s' := by
  rw [finish_eq hr.1] at h
  cases h
  refine ⟨rfl, ⟨s.notifications, _, rfl, ?_, hr.2⟩, rfl, rfl, rfl⟩
  cases b <;> rfl

/-- `read` under its preconditions: it allocates the 32 KiB buffer. -/
lemma read_eq {s : WebRequestState}
    (hls : s.loadState = LoadState.Response ∨ s.loadState = LoadState.GotData)
    (hbuf : s.networkBuffer = none) :
    WebRequest.read s = some { s with networkBuffer := some kInitialReadBufSize } := by
  unfold WebRequest.read
  rw [if_pos ⟨hls, hbuf⟩]

/-- Whatever `read` returns keeps every field but the buffer. -/
lemma read_fields {s sb : WebRequestState} (h : WebRequest.read s = some sb) :
    sb.loadState = s.loadState ∧ sb.notifications = s.notifications ∧
      sb.request = s.request ∧ sb.urlLoader = s.urlLoader ∧ sb.url = s.url := by
  unfold WebRequest.read at h
  split at h
  · cases h
    exact ⟨rfl, rfl, rfl, rfl, rfl⟩
  · cases h

/-- Each pass of the read loop either terminates the request properly or
leaves it running. -/
lemma startReadingLoop_done_or_running (tr : WebResponse) :
    ∀ (script : List ReadResult) (s s' : WebRequestState), Running s →
      startReadingLoop tr script s = some s' → Done s' ∨ Running s' := by
  intro script
  induction script with
  | nil =>
    intro s s' hr h
    simp only [startReadingLoop] at h
    cases h
    exact Or.inr hr
  | cons r rest ih =>
    intro s s' hr h
    simp only [startReadingLoop] at h
    cases hread : WebRequest.read s with
    | none =>
      rw [hread] at h
      cases h
    | some sb =>
      rw [hread] at h
      obtain ⟨hls, hnot, hreq, _, _⟩ := read_fields hread
      have hrb : Running sb := ⟨hls ▸ hr.1, hnot ▸ hr.2⟩
      cases r with
      | sync n =>
        cases n with
        | zero => exact Or.inl (finish_done hrb h)
        | succ m =>
          refine ih _ _ ⟨?_, ?_⟩ h
          · show LoadState.GotData.toNat < LoadState.Finished.toNat
            decide
          · show terminalCount
              (sb.notifications ++ [Notification.didReceiveData (Int.ofNat (m + 1))]) = 0
            rw [terminalCount_append_single sb.notifications
              (Notification.didReceiveData (Int.ofNat (m + 1))) rfl]
            exact hrb.2
      | pending =>
        have h2 : (if sb.request = true then some sb
            else WebRequest.finish tr false sb) = some s' := h
        by_cases hq : sb.request = true
        · rw [if_pos hq] at h2
          cases h2
          exact Or.inr hrb
        · rw [if_neg hq] at h2
          exact Or.inl (finish_done hrb h2)
      | failed => exact Or.inl (finish_done hrb h)

lemma startReading_done_or_running {tr : WebResponse} {script : List ReadResult}
    {s s' : WebRequestState} (hr : Running s)
    (h : WebRequest.startReading tr script s = some s') : Done s' ∨ Running s' := by
  unfold WebRequest.startReading at h
  split at h
  · exact startReadingLoop_done_or_running tr script s s' hr h
  · cases h

lemma OnReadCompleted_done_or_running {tr : WebResponse} {script : List ReadResult}
    {ok : Bool} {n : Int} {s s' : WebRequestState} (hr : Running s)
    (h : WebRequest.OnReadCompleted tr script ok n s = some s') :
    Done s' ∨ Running s' := by
  unfold WebRequest.OnReadCompleted at h
  split at h
  · split at h
    · refine startReading_done_or_running ⟨?_, ?_⟩ h
      · show LoadState.GotData.toNat < LoadState.Finished.toNat
        decide
      · show terminalCount (s.notifications ++ [Notification.didReceiveData n]) = 0
        rw [terminalCount_append_single s.notifications (Notification.didReceiveData n) rfl]
        exact hr.2
    · exact Or.inl (finish_done hr h)
  · cases h

/-- Once the state is `Finished`, any further `OnReadCompleted` hits the
fatal precondition check, so a surviving run delivered no further
callbacks. -/
lemma runCompletions_of_finished (tr : WebResponse) :
    ∀ (comps : List (Bool × Int × List ReadResult)) (s s' : WebRequestState),
      s.loadState = LoadState.Finished →
      runCompletions tr comps s = some s' → s' = s := by
  intro comps
  cases comps with
  | nil =>
    intro s s' _ h
    simp only [runCompletions] at h
    cases h
    rfl
  | cons e rest =>
    intro s s' hfin h
    obtain ⟨ok, n, script⟩ := e
    simp only [runCompletions] at h
    have hnone : WebRequest.OnReadCompleted tr script ok n s = none := by
      unfold WebRequest.OnReadCompleted
      rw [if_neg]
      rintro (h2 | h2) <;> rw [hfin] at h2 <;> cases h2
    rw [hnone] at h
    cases h

lemma runCompletions_done_or_running (tr : WebResponse) :
    ∀ (comps : List (Bool × Int × List ReadResult)) (s s' : WebRequestState),
      Running s → runCompletions tr comps s = some s' → Done s' ∨ Running s' := by
  intro comps
  induction comps with
  | nil =>
    intro s s' hr h
    simp only [runCompletions] at h
    cases h
    exact Or.inr hr
  | cons e rest ih =>
    intro s s' hr h
    obtain ⟨ok, n, script⟩ := e
    simp only [runCompletions] at h
    cases hstep : WebRequest.OnReadCompleted tr script ok n s with
    | none =>
      rw [hstep] at h
      cases h
    | some s1 =>
      rw [hstep] at h
      rcases OnReadCompleted_done_or_running hr hstep with hd | hrun
      · rw [runCompletions_of_finished tr rest s1 s' hd.1 h]
        exact Or.inl hd
      · exact ih s1 s' hrun h

/-- Pre-response callbacks preserve the load state and post no terminal,
`didFail`, `didReceiveResponse` or `didReceiveData` notification. -/
lemma runPreEvents_invariant (tr : WebResponse) (p : Notification → Bool)
    (hws : ∀ r, p (Notification.willSendRequest r) = false)
    (hau : p Notification.authRequired = false) :
    ∀ (pre : List PreEvent) (s s' : WebRequestState),
      runPreEvents tr pre s = some s' →
      s'.loadState = s.loadState ∧
        (s'.notifications.filter p).length = (s.notifications.filter p).length ∧
        s'.networkBuffer = s.networkBuffer ∧ s'.request = s.request ∧
        s'.urlLoader = s.urlLoader ∧ s'.url = s.url := by
  intro pre
  induction pre with
  | nil =>
    intro s s' h
    simp only [runPreEvents] at h
    cases h
    exact ⟨rfl, rfl, rfl, rfl, rfl, rfl⟩
  | cons e rest ih =>
    intro s s' h
    cases e with
    | redirect ok u =>
      simp only [runPreEvents] at h
      cases hstep : WebRequest.OnReceivedRedirect tr ok u s with
      | none => rw [hstep] at h; cases h
      | some s1 =>
        rw [hstep] at h
        have h1 : s1.loadState = s.loadState ∧
            (s1.notifications.filter p).length = (s.notifications.filter p).length ∧
            s1.networkBuffer = s.networkBuffer ∧ s1.request = s.request ∧
            s1.urlLoader = s.urlLoader ∧ s1.url = s.url := by
          unfold WebRequest.OnReceivedRedirect at hstep
          split at hstep
          · split at hstep
            · cases hstep
              refine ⟨rfl, ?_, rfl, rfl, rfl, rfl⟩
              simp [List.filter_append, List.filter, hws]
            · cases hstep
              exact ⟨rfl, rfl, rfl, rfl, rfl, rfl⟩
          · cases hstep
        obtain ⟨a1, a2, a3, a4, a5, a6⟩ := ih s1 s' h
        exact ⟨a1.trans h1.1, a2.trans h1.2.1, a3.trans h1.2.2.1,
          a4.trans h1.2.2.2.1, a5.trans h1.2.2.2.2.1, a6.trans h1.2.2.2.2.2⟩
    | auth =>
      simp only [runPreEvents] at h
      cases hstep : WebRequest.OnAuthRequired s with
      | none => rw [hstep] at h; cases h
      | some s1 =>
        rw [hstep] at h
        have h1 : s1.loadState = s.loadState ∧
            (s1.notifications.filter p).length = (s.notifications.filter p).length ∧
            s1.networkBuffer = s.networkBuffer ∧ s1.request = s.request ∧
            s1.urlLoader = s.urlLoader ∧ s1.url = s.url := by
          unfold WebRequest.OnAuthRequired at hstep
          split at hstep
          · cases hstep
            refine ⟨rfl, ?_, rfl, rfl, rfl, rfl⟩
            simp [List.filter_append, List.filter, hau]
          · cases hstep
        obtain ⟨a1, a2, a3, a4, a5, a6⟩ := ih s1 s' h
        exact ⟨a1.trans h1.1, a2.trans h1.2.1, a3.trans h1.2.2.1,
          a4.trans h1.2.2.2.1, a5.trans h1.2.2.2.2.1, a6.trans h1.2.2.2.2.2⟩

/-- Closed form of the Android-URL read loop: it posts one
`didReceiveAndroidFileData` per stream chunk up to (excluding) the first
negative read, moving to `GotData` as soon as one chunk was delivered. -/
lemma androidReadLoop_spec :
    ∀ (stream : List Int) (s : WebRequestState),
      androidReadLoop stream s =
        { s with
          loadState :=
            if (stream.takeWhile fun n => !decide (n < 0)) = [] then s.loadState
            else LoadState.GotData
          notifications := s.notifications ++
            (stream.takeWhile fun n => !decide (n < 0)).map
              Notification.didReceiveAndroidFileData } := by
  intro stream
  induction stream with
  | nil =>
    intro s
    simp [androidReadLoop]
  | cons n rest ih =>
    intro s
    by_cases hn : n < 0
    · simp [androidReadLoop, hn, List.takeWhile_cons]
    · simp only [androidReadLoop, if_neg hn]
      rw [ih]
      simp [List.takeWhile_cons, hn]

/-- Full Android-URL execution with a present stream handle. -/
lemma runAndroid_some_eq (tr : WebResponse) (fm : String → Option String)
    (stream : List Int) (url : String) :
    runAndroid tr fm (some stream) url = some
      { url := url
        loadState := LoadState.Finished
        networkBuffer := none
        request := false
        urlLoader := false
        notifications :=
          ([Notification.didReceiveResponse
              { url := url, mimeType := mimeFromUrl fm url, length := 0
                charset := "", status := 200 }] ++
            (stream.takeWhile fun n => !decide (n < 0)).map
              Notification.didReceiveAndroidFileData) ++
          [Notification.didFinishLoading] } := by
  have hbase : runAndroid tr fm (some stream) url =
      WebRequest.finish tr true (androidReadLoop stream
        { url := url
          loadState := LoadState.Response
          networkBuffer := none
          request := false
          urlLoader := true
          notifications :=
            [Notification.didReceiveResponse
              { url := url, mimeType := mimeFromUrl fm url, length := 0
                charset := "", status := 200 }] }) := rfl
  rw [hbase, androidReadLoop_spec]
  rw [finish_eq]
  · rfl
  · dsimp only
    split
    · decide
    · decide

/-- Full Android-URL execution with a null stream handle: `Finished` is set
directly, one `didFail` with the empty descriptor is posted, and the consumer
handle `m_urlLoader` is left in place. -/
lemma runAndroid_none_eq (tr : WebResponse) (fm : String → Option String)
    (url : String) :
    runAndroid tr fm none url = some
      { url := url
        loadState := LoadState.Finished
        networkBuffer := none
        request := false
        urlLoader := true
        notifications :=
          [Notification.didFail
            { url := url, mimeType := "", length := 0, charset := "", status := 0 }] } := rfl

/-- `start` on a fresh data-URL request reaches `handleDataURL` in state
`Started`. -/
lemma runDataUrl_eq (tr : WebResponse) (parsed : Option (String × String × String))
    (url : String) :
    runDataUrl tr parsed url = WebRequest.handleDataURL tr parsed url
      { url := url
        loadState := LoadState.Started
        networkBuffer := none
        request := true
        urlLoader := true
        notifications := [] } := rfl

/-- `start` on a fresh browser-URL request reaches `handleBrowserURL` in
state `Started`. -/
lemma runBrowser_eq (tr : WebResponse) (incognitoAsset : Option String)
    (parse : String → Option (String × String × String)) (url : String) :
    runBrowser tr incognitoAsset parse url =
      WebRequest.handleBrowserURL tr incognitoAsset parse url
        { url := url
          loadState := LoadState.Started
          networkBuffer := none
          request := true
          urlLoader := true
          notifications := [] } := rfl

/-- From a running state, `handleDataURL` always terminates the request
properly (both on parse success and on parse failure). -/
lemma handleDataURL_done {tr : WebResponse}
    {parsed : Option (String × String × String)} {url : String}
    {s s' : WebRequestState} (hr : Running s)
    (h : WebRequest.handleDataURL tr parsed url s = some s') : Done s' := by
  cases parsed with
  | none => exact finish_done hr h
  | some p =>
    obtain ⟨mt, cs, d⟩ := p
    have h2 : WebRequest.finish tr true
        (if d.isEmpty then
          { s with
            loadState := LoadState.Response
            notifications := s.notifications ++
              [Notification.didReceiveResponse
                { url := url, mimeType := mt, length := d.length
                  charset := cs, status := 200 }] }
        else
          { s with
            loadState := LoadState.GotData
            notifications := (s.notifications ++
              [Notification.didReceiveResponse
                { url := url, mimeType := mt, length := d.length
                  charset := cs, status := 200 }]) ++
              [Notification.didReceiveDataUrl d] }) = some s' := h
    by_cases hd : d.isEmpty
    · rw [if_pos hd] at h2
      refine finish_done ⟨?_, ?_⟩ h2
      · show LoadState.Response.toNat < LoadState.Finished.toNat
        decide
      · show terminalCount (s.notifications ++
          [Notification.didReceiveResponse
            { url := url, mimeType := mt, length := d.length
              charset := cs, status := 200 }]) = 0
        rw [terminalCount_append_single _ _ (isTerminal_didReceiveResponse _)]
        exact hr.2
    · rw [if_neg hd] at h2
      refine finish_done ⟨?_, ?_⟩ h2
      · show LoadState.GotData.toNat < LoadState.Finished.toNat
        decide
      · show terminalCount ((s.notifications ++
          [Notification.didReceiveResponse
            { url := url, mimeType := mt, length := d.length
              charset := cs, status := 200 }]) ++
          [Notification.didReceiveDataUrl d]) = 0
        rw [terminalCount_append_single _ _ (isTerminal_didReceiveDataUrl _),
          terminalCount_append_single _ _ (isTerminal_didReceiveResponse _)]
        exact hr.2

/-- Number of notifications in a posted list satisfying `p`. -/
def countNote (p : Notification → Bool) (l : List Notification) : Nat :=
  (l.filter p).length

def isDidFail : Notification → Bool
  | Notification.didFail _ => true
  | _ => false

def isDidReceiveResponse : Notification → Bool
  | Notification.didReceiveResponse _ => true
  | _ => false

def isDidReceiveData : Notification → Bool
  | Notification.didReceiveData _ => true
  | _ => false

lemma terminalCount_map_fileData (l : List Int) :
    terminalCount (l.map Notification.didReceiveAndroidFileData) = 0 := by
  induction l with
  | nil => rfl
  | cons a t ih =>
    rw [List.map_cons, show terminalCount (Notification.didReceiveAndroidFileData a ::
      t.map Notification.didReceiveAndroidFileData) =
      terminalCount (t.map Notification.didReceiveAndroidFileData) from by
        simp [terminalCount, List.filter_cons, isTerminal]]
    exact ih

lemma OnResponseStarted_done_or_running {tr : WebResponse} {ok : Bool}
    {script : List ReadResult} {s s' : WebRequestState} (hr : Running s)
    (h : WebRequest.OnResponseStarted tr ok script s = some s') :
    Done s' ∨ Running s' := by
  unfold WebRequest.OnResponseStarted at h
  split at h
  · dsimp only at h
    split at h
    · refine startReading_done_or_running ⟨?_, ?_⟩ h
      · show LoadState.Response.toNat < LoadState.Finished.toNat
        decide
      · show terminalCount (s.notifications ++ [Notification.didReceiveResponse tr]) = 0
        rw [terminalCount_append_single _ _ (isTerminal_didReceiveResponse _)]
        exact hr.2
    · refine Or.inl (finish_done ⟨?_, ?_⟩ h)
      · show LoadState.Response.toNat < LoadState.Finished.toNat
        decide
      · show terminalCount s.notifications = 0
        exact hr.2
  · cases h

/-- `runNetwork` in `Option.bind` form, with `start` already executed. -/
lemma runNetwork_eq (tr : WebResponse) (pre : List PreEvent) (ok : Bool)
    (script : List ReadResult)
    (completions : List (Bool × Int × List ReadResult)) (url : String) :
    runNetwork tr pre ok script completions url =
      (runPreEvents tr pre
        { url := url
          loadState := LoadState.Started
          networkBuffer := none
          request := true
          urlLoader := true
          notifications := [] }).bind fun s2 =>
        (WebRequest.OnResponseStarted tr ok script s2).bind fun s3 =>
          runCompletions tr completions s3 := rfl

/-- A sample transport-derived response descriptor, used to instantiate
witnesses on concrete inputs. -/
def trSample : WebResponse :=
  { url := "http://e", mimeType := "text/html", length := 0, charset := "", status := 200 }

/-- The final state of a data-URL execution whose payload fails to parse. -/
def sDataFailParse : WebRequestState :=
  { url := "u"
    loadState := LoadState.Finished
    networkBuffer := none
    request := false
    urlLoader := false
    notifications := [Notification.didFinishLoading] }

/-!  ## The claims  -/

/-- C1: For every request execution — network, Android-stream, data-URL or
browser-URL — that runs to completion (the run survives every fatal
assertion and reaches `Finished`), exactly one terminal notification
(`didFinishLoading` or `didFail`) is posted, it is posted exactly once, and
no notification of any kind (`didReceiveResponse`, `willSendRequest`,
`authRequired`, `didReceiveData`, `didReceiveAndroidFileData`,
`didReceiveDataUrl` included) is posted after it. -/
theorem requestExecution_exactlyOneTerminal :
    (∀ (tr : WebResponse) (pre : List PreEvent) (ok : Bool)
        (script : List ReadResult)
        (completions : List (Bool × Int × List ReadResult)) (url : String)
        (s : WebRequestState),
      runNetwork tr pre ok script completions url = some s →
      s.loadState = LoadState.Finished → TerminatedOnce s.notifications) ∧
    (∀ (tr : WebResponse) (fm : String → Option String)
        (inputStream : Option (List Int)) (url : String) (s : WebRequestState),
      runAndroid tr fm inputStream url = some s →
      TerminatedOnce s.notifications ∧ s.loadState = LoadState.Finished) ∧
    (∀ (tr : WebResponse) (parsed : Option (String × String × String))
        (url : String) (s : WebRequestState),
      runDataUrl tr parsed url = some s →
      TerminatedOnce s.notifications ∧ s.loadState = LoadState.Finished) ∧
    (∀ (tr : WebResponse) (incognitoAsset : Option String)
        (parse : String → Option (String × String × String)) (url : String)
        (s : WebRequestState),
      runBrowser tr incognitoAsset parse url = some s →
      TerminatedOnce s.notifications ∧ s.loadState = LoadState.Finished) := by
  refine ⟨?_, ?_, ?_, ?_⟩
  · intro tr pre ok script comps url s h hfin
    rw [runNetwork_eq] at h
    cases hpre : runPreEvents tr pre
        { url := url
          loadState := LoadState.Started
          networkBuffer := none
          request := true
          urlLoader := true
          notifications := [] } with
    | none => rw [hpre] at h; cases h
    | some s2 =>
      rw [hpre, Option.some_bind] at h
      have hinv := runPreEvents_invariant tr isTerminal (fun _ => rfl) rfl pre _ s2 hpre
      have hr2 : Running s2 := by
        constructor
        · rw [hinv.1]
          show LoadState.Started.toNat < LoadState.Finished.toNat
          decide
        · exact hinv.2.1
      cases hresp : WebRequest.OnResponseStarted tr ok script s2 with
      | none => rw [hresp] at h; cases h
      | some s3 =>
        rw [hresp, Option.some_bind] at h
        rcases OnResponseStarted_done_or_running hr2 hresp with hd | hr3
        · rw [runCompletions_of_finished tr comps s3 s hd.1 h]
          exact hd.2.1
        · rcases runCompletions_done_or_running tr comps s3 s hr3 h with hd | hrs
          · exact hd.2.1
          · exact absurd hfin (running_ne_finished hrs)
  · intro tr fm inputStream url s h
    cases inputStream with
    | none =>
      rw [runAndroid_none_eq] at h
      cases h
      exact ⟨⟨[], _, rfl, rfl, rfl⟩, rfl⟩
    | some stream =>
      rw [runAndroid_some_eq] at h
      cases h
      refine ⟨⟨_, Notification.didFinishLoading, rfl, rfl, ?_⟩, rfl⟩
      rw [terminalCount_append]
      rw [show terminalCount [Notification.didReceiveResponse
        { url := url, mimeType := mimeFromUrl fm url, length := 0
          charset := "", status := 200 }] = 0 from rfl]
      rw [terminalCount_map_fileData]
  · intro tr parsed url s h
    rw [runDataUrl_eq] at h
    have hr0 : Running
        { url := url
          loadState := LoadState.Started
          networkBuffer := none
          request := true
          urlLoader := true
          notifications := [] } :=
      ⟨show LoadState.Started.toNat < LoadState.Finished.toNat from by decide, rfl⟩
    have hd := handleDataURL_done hr0 h
    exact ⟨hd.2.1, hd.1⟩
  · intro tr incognitoAsset parse url s h
    rw [runBrowser_eq] at h
    unfold WebRequest.handleBrowserURL at h
    have hr0 : Running
        { url := url
          loadState := LoadState.Started
          networkBuffer := none
          request := true
          urlLoader := true
          notifications := [] } :=
      ⟨show LoadState.Started.toNat < LoadState.Finished.toNat from by decide, rfl⟩
    have hd := handleDataURL_done hr0 h
    exact ⟨hd.2.1, hd.1⟩

/-- Witness for C1: the data-URL execution whose payload fails to parse,
run on concrete inputs. -/
theorem requestExecution_exactlyOneTerminal_witness :
    TerminatedOnce sDataFailParse.notifications ∧
      sDataFailParse.loadState = LoadState.Finished :=
  requestExecution_exactlyOneTerminal.2.2.1 trSample none "u" sDataFailParse rfl

/-- C2: at most one network buffer is ever outstanding.  (i) `read` refuses
(fatal assert) whenever `m_networkBuffer` is non-null, so it only allocates
into a null slot; (ii) the instrumented loop agrees with the loop;
(iii) starting from a null buffer slot, every state at which the loop issues
a read has a null buffer slot, so no read is ever issued while a prior
buffer is unflushed; (iv) `OnReadCompleted` clears the buffer reference in
the very state with which it posts the data and resumes reading. -/
theorem atMostOneOutstandingBuffer :
    (∀ s : WebRequestState, s.networkBuffer ≠ none → WebRequest.read s = none) ∧
    (∀ (tr : WebResponse) (script : List ReadResult) (s : WebRequestState),
      (startReadingLoopT tr script s).1 = startReadingLoop tr script s) ∧
    (∀ (tr : WebResponse) (script : List ReadResult) (s : WebRequestState),
      s.networkBuffer = none →
      ∀ p ∈ (startReadingLoopT tr script s).2, p.networkBuffer = none) ∧
    (∀ (tr : WebResponse) (script : List ReadResult) (n : Int)
        (s : WebRequestState),
      s.loadState = LoadState.Response ∨ s.loadState = LoadState.GotData →
      WebRequest.OnReadCompleted tr script true n s =
        WebRequest.startReading tr script
          { s with
            loadState := LoadState.GotData
            notifications := s.notifications ++ [Notification.didReceiveData n]
            networkBuffer := none }) := by
  refine ⟨?_, ?_, ?_, ?_⟩
  · intro s h
    unfold WebRequest.read
    rw [if_neg]
    rintro ⟨_, hb⟩
    exact h hb
  · intro tr script
    induction script with
    | nil => intro s; rfl
    | cons r rest ih =>
      intro s
      simp only [startReadingLoopT, startReadingLoop]
      cases hread : WebRequest.read s with
      | none => rfl
      | some sb =>
        cases r with
        | sync n =>
          cases n with
          | zero => rfl
          | succ m => exact ih _
        | pending => rfl
        | failed => rfl
  · intro tr script
    induction script with
    | nil =>
      intro s _ p hp
      cases hp
    | cons r rest ih =>
      intro s hb p hp
      simp only [startReadingLoopT] at hp
      cases hread : WebRequest.read s with
      | none =>
        rw [hread] at hp
        have : p = s := by simpa using hp
        rw [this]
        exact hb
      | some sb =>
        rw [hread] at hp
        cases r with
        | sync n =>
          cases n with
          | zero =>
            have : p = s := by simpa using hp
            rw [this]
            exact hb
          | succ m =>
            have hp2 : p = s ∨ p ∈ (startReadingLoopT tr rest
                { sb with
                  loadState := LoadState.GotData
                  notifications := sb.notifications ++
                    [Notification.didReceiveData (Int.ofNat (m + 1))]
                  networkBuffer := none }).2 := by simpa using hp
            rcases hp2 with hp2 | hp2
            · rw [hp2]
              exact hb
            · exact ih _ rfl p hp2
        | pending =>
          have : p = s := by simpa using hp
          rw [this]
          exact hb
        | failed =>
          have : p = s := by simpa using hp
          rw [this]
          exact hb
  · intro tr script n s hpre
    unfold WebRequest.OnReadCompleted
    rw [if_pos hpre]
    rfl

/-- A request state whose buffer slot is occupied: `read` must refuse. -/
def sBufBusy : WebRequestState :=
  { url := "u"
    loadState := LoadState.Response
    networkBuffer := some kInitialReadBufSize
    request := true
    urlLoader := true
    notifications := [] }

/-- Witness for C2: `read` on a state with an outstanding buffer crashes
rather than allocating a second buffer. -/
theorem atMostOneOutstandingBuffer_witness : WebRequest.read sBufBusy = none :=
  atMostOneOutstandingBuffer.1 sBufBusy (by decide)

/-- C3: `cancel` past `Cancelled` (a finish has already landed) is a no-op
that changes no state and posts nothing; from `Started`, `Response` or
`GotData` it moves to `Cancelled`, aborts the transport and synchronously
runs `finish(true)`; and a second `cancel` after a first one (or after any
completed finish) posts no second termination notification. -/
theorem cancel_idempotent_spec :
    (∀ (tr : WebResponse) (s : WebRequestState),
      LoadState.Cancelled.toNat < s.loadState.toNat →
      WebRequest.cancel tr s = some s) ∧
    (∀ (tr : WebResponse) (s : WebRequestState),
      (s.loadState = LoadState.Started ∨ s.loadState = LoadState.Response ∨
        s.loadState = LoadState.GotData) →
      s.request = true →
      WebRequest.cancel tr s = some
        { s with
          loadState := LoadState.Finished
          notifications := s.notifications ++ [Notification.didFinishLoading]
          networkBuffer := none
          request := false
          urlLoader := false }) ∧
    (∀ (tr tr2 : WebResponse) (s s' : WebRequestState),
      (s.loadState = LoadState.Started ∨ s.loadState = LoadState.Response ∨
        s.loadState = LoadState.GotData) →
      s.request = true →
      WebRequest.cancel tr s = some s' →
      WebRequest.cancel tr2 s' = some s') := by
  have part1 : ∀ (tr : WebResponse) (s : WebRequestState),
      LoadState.Cancelled.toNat < s.loadState.toNat →
      WebRequest.cancel tr s = some s := by
    intro tr s h
    have h4 : 4 < s.loadState.toNat := h
    unfold WebRequest.cancel
    rw [if_pos (show LoadState.Started.toNat ≤ s.loadState.toNat from by
      show 1 ≤ s.loadState.toNat
      omega)]
    rw [if_pos (show s.loadState ≠ LoadState.Cancelled from by
      intro he
      rw [he] at h4
      exact absurd h4 (by decide))]
    rw [if_pos h]
  have part2 : ∀ (tr : WebResponse) (s : WebRequestState),
      (s.loadState = LoadState.Started ∨ s.loadState = LoadState.Response ∨
        s.loadState = LoadState.GotData) →
      s.request = true →
      WebRequest.cancel tr s = some
        { s with
          loadState := LoadState.Finished
          notifications := s.notifications ++ [Notification.didFinishLoading]
          networkBuffer := none
          request := false
          urlLoader := false } := by
    intro tr s hst hreq
    have hle : LoadState.Started.toNat ≤ s.loadState.toNat := by
      rcases hst with h | h | h <;> rw [h] <;> decide
    have hne : s.loadState ≠ LoadState.Cancelled := by
      rcases hst with h | h | h <;> rw [h] <;> decide
    have hngt : ¬ LoadState.Cancelled.toNat < s.loadState.toNat := by
      rcases hst with h | h | h <;> rw [h] <;> decide
    unfold WebRequest.cancel
    rw [if_pos hle, if_pos hne, if_neg hngt, if_pos hreq]
    rw [finish_eq (show LoadState.Cancelled.toNat < LoadState.Finished.toNat from
      by decide)]
    rfl
  refine ⟨part1, part2, ?_⟩
  intro tr tr2 s s' hst hreq hc
  rw [part2 tr s hst hreq] at hc
  cases hc
  apply part1
  show LoadState.Cancelled.toNat < LoadState.Finished.toNat
  decide

/-- A request mid-stream: `Response` received, one chunk delivered, a read
outstanding. -/
def sGotData : WebRequestState :=
  { url := "u"
    loadState := LoadState.GotData
    networkBuffer := some kInitialReadBufSize
    request := true
    urlLoader := true
    notifications := [Notification.didReceiveResponse trSample,
      Notification.didReceiveData 4] }

/-- Witness for C3: cancelling a mid-stream request posts exactly one
`didFinishLoading` and runs `finish`. -/
theorem cancel_idempotent_spec_witness :
    WebRequest.cancel trSample sGotData = some
      { sGotData with
        loadState := LoadState.Finished
        notifications := sGotData.notifications ++ [Notification.didFinishLoading]
        networkBuffer := none
        request := false
        urlLoader := false } :=
  cancel_idempotent_spec.2.1 trSample sGotData (Or.inr (Or.inr rfl)) rfl

/-- C4: each pass of the read loop allocates a fresh buffer of
`kInitialReadBufSize = 32768` bytes and issues one read; a synchronous
completion with `n > 0` posts `didReceiveData`, moves to `GotData`, clears
the buffer and loops again in the same turn; a synchronous completion with
`n == 0` calls `finish(true)` and stops; an io-pending status stops the loop
with the buffer left outstanding (awaiting `OnReadCompleted`); any other
failure calls `finish(false)` and stops. -/
theorem startReading_loopStep :
    kInitialReadBufSize = 32768 ∧
    (∀ s : WebRequestState,
      (s.loadState = LoadState.Response ∨ s.loadState = LoadState.GotData) →
      s.networkBuffer = none →
      WebRequest.read s = some { s with networkBuffer := some kInitialReadBufSize }) ∧
    (∀ (tr : WebResponse) (rest : List ReadResult) (n : Nat) (s : WebRequestState),
      (s.loadState = LoadState.Response ∨ s.loadState = LoadState.GotData) →
      s.networkBuffer = none →
      startReadingLoop tr (ReadResult.sync (n + 1) :: rest) s =
        startReadingLoop tr rest
          { s with
            loadState := LoadState.GotData
            notifications := s.notifications ++
              [Notification.didReceiveData (Int.ofNat (n + 1))]
            networkBuffer := none }) ∧
    (∀ (tr : WebResponse) (rest : List ReadResult) (s : WebRequestState),
      (s.loadState = LoadState.Response ∨ s.loadState = LoadState.GotData) →
      s.networkBuffer = none →
      startReadingLoop tr (ReadResult.sync 0 :: rest) s =
        WebRequest.finish tr true { s with networkBuffer := some kInitialReadBufSize }) ∧
    (∀ (tr : WebResponse) (rest : List ReadResult) (s : WebRequestState),
      (s.loadState = LoadState.Response ∨ s.loadState = LoadState.GotData) →
      s.networkBuffer = none →
      s.request = true →
      startReadingLoop tr (ReadResult.pending :: rest) s =
        some { s with networkBuffer := some kInitialReadBufSize }) ∧
    (∀ (tr : WebResponse) (rest : List ReadResult) (s : WebRequestState),
      (s.loadState = LoadState.Response ∨ s.loadState = LoadState.GotData) →
      s.networkBuffer = none →
      startReadingLoop tr (ReadResult.failed :: rest) s =
        WebRequest.finish tr false { s with networkBuffer := some kInitialReadBufSize }) := by
  refine ⟨rfl, ?_, ?_, ?_, ?_, ?_⟩
  · intro s hpre hbuf
    exact read_eq hpre hbuf
  · intro tr rest n s hpre hbuf
    simp only [startReadingLoop]
    rw [read_eq hpre hbuf]
  · intro tr rest s hpre hbuf
    simp only [startReadingLoop]
    rw [read_eq hpre hbuf]
  · intro tr rest s hpre hbuf hreq
    simp only [startReadingLoop]
    rw [read_eq hpre hbuf]
    show (if ({ s with networkBuffer := some kInitialReadBufSize} :
        WebRequestState).request = true then _ else _) = _
    rw [if_pos (show ({ s with networkBuffer := some kInitialReadBufSize} :
      WebRequestState).request = true from hreq)]
  · intro tr rest s hpre hbuf
    simp only [startReadingLoop]
    rw [read_eq hpre hbuf]

/-- A fresh `Response`-state controller with an empty buffer slot. -/
def sResponse : WebRequestState :=
  { url := "u"
    loadState := LoadState.Response
    networkBuffer := none
    request := true
    urlLoader := true
    notifications := [] }

/-- Witness for C4: an io-pending read leaves the loop waiting with the
freshly allocated 32768-byte buffer outstanding. -/
theorem startReading_loopStep_witness :
    startReadingLoop trSample [ReadResult.pending] sResponse =
      some { sResponse with networkBuffer := some kInitialReadBufSize } :=
  startReading_loopStep.2.2.2.2.1 trSample [] sResponse (Or.inl rfl) rfl rfl

/-- C5: `OnResponseStarted` requires state `Started` (fatal otherwise) and
moves to `Response`; on transport success it posts `didReceiveResponse` and
enters the read loop; on transport failure it runs `finish(false)` without
entering the read loop, and the whole execution then shows exactly one
`didFail`, no `didReceiveResponse` and no `didReceiveData`. -/
theorem OnResponseStarted_spec :
    (∀ (tr : WebResponse) (ok : Bool) (script : List ReadResult)
        (s : WebRequestState),
      s.loadState ≠ LoadState.Started →
      WebRequest.OnResponseStarted tr ok script s = none) ∧
    (∀ (tr : WebResponse) (script : List ReadResult) (s : WebRequestState),
      s.loadState = LoadState.Started →
      WebRequest.OnResponseStarted tr true script s =
        WebRequest.startReading tr script
          { s with
            loadState := LoadState.Response
            notifications := s.notifications ++ [Notification.didReceiveResponse tr] }) ∧
    (∀ (tr : WebResponse) (script : List ReadResult) (s : WebRequestState),
      s.loadState = LoadState.Started →
      WebRequest.OnResponseStarted tr false script s =
        WebRequest.finish tr false { s with loadState := LoadState.Response }) ∧
    (∀ (tr : WebResponse) (pre : List PreEvent) (script : List ReadResult)
        (completions : List (Bool × Int × List ReadResult)) (url : String)
        (s : WebRequestState),
      runNetwork tr pre false script completions url = some s →
      countNote isDidFail s.notifications = 1 ∧
      countNote isDidReceiveResponse s.notifications = 0 ∧
      countNote isDidReceiveData s.notifications = 0) := by
  refine ⟨?_, ?_, ?_, ?_⟩
  · intro tr ok script s h
    unfold WebRequest.OnResponseStarted
    rw [if_neg h]
  · intro tr script s h
    unfold WebRequest.OnResponseStarted
    rw [if_pos h]
    rfl
  · intro tr script s h
    unfold WebRequest.OnResponseStarted
    rw [if_pos h]
    rfl
  · intro tr pre script comps url s h
    rw [runNetwork_eq] at h
    cases hpre : runPreEvents tr pre
        { url := url
          loadState := LoadState.Started
          networkBuffer := none
          request := true
          urlLoader := true
          notifications := [] } with
    | none => rw [hpre] at h; cases h
    | some s2 =>
      rw [hpre, Option.some_bind] at h
      have hfail := runPreEvents_invariant tr isDidFail (fun _ => rfl) rfl pre _ s2 hpre
      have hresp := runPreEvents_invariant tr isDidReceiveResponse
        (fun _ => rfl) rfl pre _ s2 hpre
      have hdata := runPreEvents_invariant tr isDidReceiveData
        (fun _ => rfl) rfl pre _ s2 hpre
      have hs2started : s2.loadState = LoadState.Started := hfail.1
      have hstep : WebRequest.OnResponseStarted tr false script s2 =
          some { s2 with
            loadState := LoadState.Finished
            notifications := s2.notifications ++ [Notification.didFail tr]
            networkBuffer := none
            request := false
            urlLoader := false } := by
        unfold WebRequest.OnResponseStarted
        rw [if_pos hs2started]
        have hred : WebRequest.finish tr false
            { s2 with loadState := LoadState.Response } = some
            { s2 with
              loadState := LoadState.Finished
              notifications := s2.notifications ++ [Notification.didFail tr]
              networkBuffer := none
              request := false
              urlLoader := false } := by
          rw [finish_eq (show LoadState.Response.toNat < LoadState.Finished.toNat from
            by decide)]
          rfl
        exact hred
      rw [hstep, Option.some_bind] at h
      have hs := runCompletions_of_finished tr comps _ s rfl h
      rw [hs]
      refine ⟨?_, ?_, ?_⟩
      · show ((s2.notifications ++ [Notification.didFail tr]).filter isDidFail).length = 1
        rw [List.filter_append, List.length_append,
          show (s2.notifications.filter isDidFail).length = 0 from hfail.2.1]
        rfl
      · show ((s2.notifications ++
          [Notification.didFail tr]).filter isDidReceiveResponse).length = 0
        rw [List.filter_append, List.length_append,
          show (s2.notifications.filter isDidReceiveResponse).length = 0 from hresp.2.1]
        rfl
      · show ((s2.notifications ++
          [Notification.didFail tr]).filter isDidReceiveData).length = 0
        rw [List.filter_append, List.length_append,
          show (s2.notifications.filter isDidReceiveData).length = 0 from hdata.2.1]
        rfl

/-- The final state of a network execution whose transport fails at
response-start. -/
def sNetFail : WebRequestState :=
  { url := "http://e"
    loadState := LoadState.Finished
    networkBuffer := none
    request := false
    urlLoader := false
    notifications := [Notification.didFail trSample] }

/-- Witness for C5: a transport failure at response-start posts one
`didFail` and nothing else. -/
theorem OnResponseStarted_spec_witness :
    countNote isDidFail sNetFail.notifications = 1 ∧
    countNote isDidReceiveResponse sNetFail.notifications = 0 ∧
    countNote isDidReceiveData sNetFail.notifications = 0 :=
  OnResponseStarted_spec.2.2.2 trSample [] [] [] "http://e" sNetFail rfl

/-- C6: on a successfully parsed data-URL payload, `handleDataURL` sets
`Response`, posts one `didReceiveResponse` carrying the parsed MIME type,
charset, decoded length and status 200, posts `didReceiveDataUrl` (moving to
`GotData`) exactly when the payload is non-empty, and then calls
`finish(true)`; on a parse failure it posts nothing itself and likewise
calls `finish(true)`, which posts the single `didFinishLoading`. -/
theorem handleDataURL_spec :
    (∀ (tr : WebResponse) (url mt cs data : String) (s : WebRequestState),
      data.isEmpty = false →
      WebRequest.handleDataURL tr (some (mt, cs, data)) url s =
        WebRequest.finish tr true
          { s with
            loadState := LoadState.GotData
            notifications := (s.notifications ++
              [Notification.didReceiveResponse
                { url := url, mimeType := mt, length := data.length
                  charset := cs, status := 200 }]) ++
              [Notification.didReceiveDataUrl data] }) ∧
    (∀ (tr : WebResponse) (url mt cs : String) (s : WebRequestState),
      WebRequest.handleDataURL tr (some (mt, cs, "")) url s =
        WebRequest.finish tr true
          { s with
            loadState := LoadState.Response
            notifications := s.notifications ++
              [Notification.didReceiveResponse
                { url := url, mimeType := mt, length := 0
                  charset := cs, status := 200 }] }) ∧
    (∀ (tr : WebResponse) (url : String) (s : WebRequestState),
      WebRequest.handleDataURL tr none url s = WebRequest.finish tr true s) ∧
    (∀ (tr : WebResponse) (s : WebRequestState),
      s.loadState.toNat < LoadState.Finished.toNat →
      WebRequest.finish tr true s = some
        { s with
          loadState := LoadState.Finished
          notifications := s.notifications ++ [Notification.didFinishLoading]
          networkBuffer := none
          request := false
          urlLoader := false }) := by
  refine ⟨?_, ?_, ?_, ?_⟩
  · intro tr url mt cs data s hemp
    unfold WebRequest.handleDataURL
    dsimp only
    rw [if_neg (show ¬ data.isEmpty = true from by
      rw [hemp]
      exact Bool.false_ne_true)]
  · intro tr url mt cs s
    rfl
  · intro tr url s
    rfl
  · intro tr s h
    rw [finish_eq h]
    rfl

/-- A fresh request that has just entered `Started`. -/
def sStartedU : WebRequestState :=
  { url := "u"
    loadState := LoadState.Started
    networkBuffer := none
    request := true
    urlLoader := true
    notifications := [] }

/-- Witness for C6: the parsed payload `("text/plain", "utf-8", "hello")`. -/
theorem handleDataURL_spec_witness :
    WebRequest.handleDataURL trSample (some ("text/plain", "utf-8", "hello")) "u"
        sStartedU =
      WebRequest.finish trSample true
        { sStartedU with
          loadState := LoadState.GotData
          notifications := (sStartedU.notifications ++
            [Notification.didReceiveResponse
              { url := "u", mimeType := "text/plain", length := "hello".length
                charset := "utf-8", status := 200 }]) ++
            [Notification.didReceiveDataUrl "hello"] } :=
  handleDataURL_spec.1 trSample "u" "text/plain" "utf-8" "hello" sStartedU rfl

/-- C7: starting the embedded-stream variant with a null input-stream handle
posts exactly one `didFail` carrying the empty descriptor (empty MIME type
and charset, zero length, status 0), posts no `didReceiveResponse` and no
data notification, and ends in state `Finished`. -/
theorem handleAndroidURL_nullStream_spec :
    ∀ (tr : WebResponse) (fm : String → Option String) (url : String),
      runAndroid tr fm none url = some
        { url := url
          loadState := LoadState.Finished
          networkBuffer := none
          request := false
          urlLoader := true
          notifications :=
            [Notification.didFail
              { url := url, mimeType := "", length := 0, charset := "", status := 0 }] } :=
  fun tr fm url => runAndroid_none_eq tr fm url

/-- The state in which the null-stream Android path leaves the controller. -/
def sAndroidNullFinal : WebRequestState :=
  { url := "u"
    loadState := LoadState.Finished
    networkBuffer := none
    request := false
    urlLoader := true
    notifications :=
      [Notification.didFail
        { url := "u", mimeType := "", length := 0, charset := "", status := 0 }] }

/-- Counterexample for C8: the null-input-stream Android path reaches
`Finished` with the consumer handle `m_urlLoader` still set — `finish` is
not on this path, so it is not true that every path reaching `Finished` has
released the consumer handle. -/
theorem finish_soleRelease_counterexample :
    runAndroid trSample (fun _ => none) none "u" = some sAndroidNullFinal ∧
      sAndroidNullFinal.loadState = LoadState.Finished ∧
      sAndroidNullFinal.urlLoader = true :=
  ⟨rfl, rfl, rfl⟩

/-- C8 (amended): `finish` itself always clears `m_request`,
`m_networkBuffer` and `m_urlLoader`, and every execution path that reaches
`Finished` through `finish` — the network path, the data-URL and browser-URL
paths, and the Android path with a present stream — ends with all three
cleared; the one exception is the null-input-stream Android path, which sets
`Finished` directly and leaves `m_urlLoader` set (`m_request` and
`m_networkBuffer` are already null there). -/
theorem finish_soleRelease_amended :
    (∀ (tr : WebResponse) (b : Bool) (s s' : WebRequestState),
      WebRequest.finish tr b s = some s' →
      s'.loadState = LoadState.Finished ∧ Cleared s') ∧
    (∀ (tr : WebResponse) (pre : List PreEvent) (ok : Bool)
        (script : List ReadResult)
        (completions : List (Bool × Int × List ReadResult)) (url : String)
        (s : WebRequestState),
      runNetwork tr pre ok script completions url = some s →
      s.loadState = LoadState.Finished → Cleared s) ∧
    (∀ (tr : WebResponse) (parsed : Option (String × String × String))
        (url : String) (s : WebRequestState),
      runDataUrl tr parsed url = some s → Cleared s) ∧
    (∀ (tr : WebResponse) (incognitoAsset : Option String)
        (parse : String → Option (String × String × String)) (url : String)
        (s : WebRequestState),
      runBrowser tr incognitoAsset parse url = some s → Cleared s) ∧
    (∀ (tr : WebResponse) (fm : String → Option String) (stream : List Int)
        (url : String) (s : WebRequestState),
      runAndroid tr fm (some stream) url = some s → Cleared s) ∧
    (∀ (tr : WebResponse) (fm : String → Option String) (url : String)
        (s : WebRequestState),
      runAndroid tr fm none url = some s →
      s.loadState = LoadState.Finished ∧ s.networkBuffer = none ∧
        s.request = false ∧ s.urlLoader = true) := by
  refine ⟨?_, ?_, ?_, ?_, ?_, ?_⟩
  · intro tr b s s' h
    unfold WebRequest.finish at h
    split at h
    · cases h
      exact ⟨rfl, rfl, rfl, rfl⟩
    · cases h
  · intro tr pre ok script comps url s h hfin
    rw [runNetwork_eq] at h
    cases hpre : runPreEvents tr pre
        { url := url
          loadState := LoadState.Started
          networkBuffer := none
          request := true
          urlLoader := true
          notifications := [] } with
    | none => rw [hpre] at h; cases h
    | some s2 =>
      rw [hpre, Option.some_bind] at h
      have hinv := runPreEvents_invariant tr isTerminal (fun _ => rfl) rfl pre _ s2 hpre
      have hr2 : Running s2 := by
        constructor
        · rw [hinv.1]
          show LoadState.Started.toNat < LoadState.Finished.toNat
          decide
        · exact hinv.2.1
      cases hresp : WebRequest.OnResponseStarted tr ok script s2 with
      | none => rw [hresp] at h; cases h
      | some s3 =>
        rw [hresp, Option.some_bind] at h
        rcases OnResponseStarted_done_or_running hr2 hresp with hd | hr3
        · rw [runCompletions_of_finished tr comps s3 s hd.1 h]
          exact hd.2.2
        · rcases runCompletions_done_or_running tr comps s3 s hr3 h with hd | hrs
          · exact hd.2.2
          · exact absurd hfin (running_ne_finished hrs)
  · intro tr parsed url s h
    rw [runDataUrl_eq] at h
    have hr0 : Running
        { url := url
          loadState := LoadState.Started
          networkBuffer := none
          request := true
          urlLoader := true
          notifications := [] } :=
      ⟨show LoadState.Started.toNat < LoadState.Finished.toNat from by decide, rfl⟩
    exact (handleDataURL_done hr0 h).2.2
  · intro tr incognitoAsset parse url s h
    rw [runBrowser_eq] at h
    unfold WebRequest.handleBrowserURL at h
    have hr0 : Running
        { url := url
          loadState := LoadState.Started
          networkBuffer := none
          request := true
          urlLoader := true
          notifications := [] } :=
      ⟨show LoadState.Started.toNat < LoadState.Finished.toNat from by decide, rfl⟩
    exact (handleDataURL_done hr0 h).2.2
  · intro tr fm stream url s h
    rw [runAndroid_some_eq] at h
    cases h
    exact ⟨rfl, rfl, rfl⟩
  · intro tr fm url s h
    rw [runAndroid_none_eq] at h
    cases h
    exact ⟨rfl, rfl, rfl, rfl⟩

/-- Witness for C8 (amended): `finish(true)` on a freshly started request
clears the three references. -/
theorem finish_soleRelease_amended_witness :
    sDataFailParse.loadState = LoadState.Finished ∧ Cleared sDataFailParse :=
  finish_soleRelease_amended.1 trSample true sStartedU sDataFailParse rfl

/-- C9: `OnReadCompleted` with a success status and `bytesRead == 0` does
not terminate the load: it moves to `GotData`, posts a zero-length
`didReceiveData`, clears the buffer reference and resumes the read loop —
unlike a synchronous read returning 0 bytes, which calls `finish(true)`. -/
theorem OnReadCompleted_zeroBytes_spec :
    (∀ (tr : WebResponse) (script : List ReadResult) (s : WebRequestState),
      s.loadState = LoadState.Response ∨ s.loadState = LoadState.GotData →
      WebRequest.OnReadCompleted tr script true 0 s =
        WebRequest.startReading tr script
          { s with
            loadState := LoadState.GotData
            notifications := s.notifications ++ [Notification.didReceiveData 0]
            networkBuffer := none }) ∧
    (∀ (tr : WebResponse) (s : WebRequestState),
      s.loadState = LoadState.Response ∨ s.loadState = LoadState.GotData →
      WebRequest.OnReadCompleted tr [] true 0 s = some
        { s with
          loadState := LoadState.GotData
          notifications := s.notifications ++ [Notification.didReceiveData 0]
          networkBuffer := none } ∧
      ({ s with
          loadState := LoadState.GotData
          notifications := s.notifications ++ [Notification.didReceiveData 0]
          networkBuffer := none } : WebRequestState).loadState ≠ LoadState.Finished) ∧
    (∀ (tr : WebResponse) (rest : List ReadResult) (s : WebRequestState),
      s.loadState = LoadState.Response ∨ s.loadState = LoadState.GotData →
      s.networkBuffer = none →
      startReadingLoop tr (ReadResult.sync 0 :: rest) s =
        WebRequest.finish tr true { s with networkBuffer := some kInitialReadBufSize }) := by
  refine ⟨?_, ?_, ?_⟩
  · intro tr script s hpre
    unfold WebRequest.OnReadCompleted
    rw [if_pos hpre]
    rfl
  · intro tr s hpre
    constructor
    · unfold WebRequest.OnReadCompleted
      rw [if_pos hpre]
      rw [if_pos (show true = true from rfl)]
      unfold WebRequest.startReading
      rw [if_pos (Or.inr rfl)]
      rfl
    · exact fun he => LoadState.noConfusion he
  · intro tr rest s hpre hbuf
    simp only [startReadingLoop]
    rw [read_eq hpre hbuf]

/-- Witness for C9: a zero-byte completion on a `Response`-state controller
posts an empty chunk and leaves the load unfinished. -/
theorem OnReadCompleted_zeroBytes_spec_witness :
    WebRequest.OnReadCompleted trSample [] true 0 sResponse = some
      { sResponse with
        loadState := LoadState.GotData
        notifications := sResponse.notifications ++ [Notification.didReceiveData 0]
        networkBuffer := none } ∧
    ({ sResponse with
        loadState := LoadState.GotData
        notifications := sResponse.notifications ++ [Notification.didReceiveData 0]
        networkBuffer := none } : WebRequestState).loadState ≠ LoadState.Finished :=
  OnReadCompleted_zeroBytes_spec.2.1 trSample sResponse (Or.inl rfl)

lemma countFail_map_fileData (l : List Int) :
    ((l.map Notification.didReceiveAndroidFileData).filter isDidFail).length = 0 := by
  induction l with
  | nil => rfl
  | cons a t ih => exact ih

/-- C10: in the embedded-stream read loop, every read returning
`size >= 0` posts one `didReceiveAndroidFileData` carrying that size
(including an empty one for `size == 0`, after which the loop continues),
and the first negative size ends the loop with `finish(true)` — a stream
read error is reported as `didFinishLoading` (posted last), never as
`didFail`. -/
theorem androidStream_errorAsEOF :
    (∀ (stream : List Int) (s : WebRequestState),
      androidReadLoop stream s =
        { s with
          loadState :=
            if (stream.takeWhile fun n => !decide (n < 0)) = [] then s.loadState
            else LoadState.GotData
          notifications := s.notifications ++
            (stream.takeWhile fun n => !decide (n < 0)).map
              Notification.didReceiveAndroidFileData }) ∧
    (∀ (tr : WebResponse) (fm : String → Option String) (stream : List Int)
        (url : String),
      runAndroid tr fm (some stream) url = some
        { url := url
          loadState := LoadState.Finished
          networkBuffer := none
          request := false
          urlLoader := false
          notifications :=
            ([Notification.didReceiveResponse
                { url := url, mimeType := mimeFromUrl fm url, length := 0
                  charset := "", status := 200 }] ++
              (stream.takeWhile fun n => !decide (n < 0)).map
                Notification.didReceiveAndroidFileData) ++
            [Notification.didFinishLoading] }) ∧
    (∀ (tr : WebResponse) (fm : String → Option String) (stream : List Int)
        (url : String) (s : WebRequestState),
      runAndroid tr fm (some stream) url = some s →
      countNote isDidFail s.notifications = 0 ∧
      ∃ l, s.notifications = l ++ [Notification.didFinishLoading]) := by
  refine ⟨androidReadLoop_spec, runAndroid_some_eq, ?_⟩
  intro tr fm stream url s h
  rw [runAndroid_some_eq] at h
  cases h
  constructor
  · show ((([Notification.didReceiveResponse
        { url := url, mimeType := mimeFromUrl fm url, length := 0
          charset := "", status := 200 }] ++
        (stream.takeWhile fun n => !decide (n < 0)).map
          Notification.didReceiveAndroidFileData) ++
        [Notification.didFinishLoading]).filter isDidFail).length = 0
    rw [List.filter_append, List.filter_append, List.length_append,
      List.length_append, countFail_map_fileData]
    rfl
  · exact ⟨_, rfl⟩

/-- The final state of an Android-stream run delivering one 3-byte chunk
and then a negative (error) read. -/
def sAndroidRun : WebRequestState :=
  { url := "u"
    loadState := LoadState.Finished
    networkBuffer := none
    request := false
    urlLoader := false
    notifications :=
      [Notification.didReceiveResponse
        { url := "u", mimeType := "text/html", length := 0, charset := "", status := 200 },
        Notification.didReceiveAndroidFileData 3,
        Notification.didFinishLoading] }

/-- Witness for C10: the stream `[3, -2]` (one chunk, then a read error)
finishes with `didFinishLoading` and no `didFail`. -/
theorem androidStream_errorAsEOF_witness :
    countNote isDidFail sAndroidRun.notifications = 0 ∧
      ∃ l, sAndroidRun.notifications = l ++ [Notification.didFinishLoading] :=
  androidStream_errorAsEOF.2.2 trSample (fun _ => none) [3, -2] "u" sAndroidRun (by rfl)

end WebRequestModel
